import Mathlib

/-!
Verification of the credential/dispatch/assembly core of the
business-gemini-pool gateway (src/old/gemini.py), as a shallow embedding:
pure Python functions become Lean functions, the mutable account registry
becomes explicit state passing, HTTP exchanges become explicit response
values, and Python exceptions become Except results.  HMAC-SHA256 and
byte-level base64 decoding are taken as abstract function parameters: no
verified property depends on their values, only on whether they are invoked.
-/

namespace BusinessGeminiPool

/-! ## Byte-level helpers (gemini.py lines 135-158) -/

/-- The urlsafe base64 alphabet used by base64.urlsafe_b64encode. -/
def b64Alphabet : List Char :=
  "ABCDEFGHIJKLMNOPQRSTUVWXYZabcdefghijklmnopqrstuvwxyz0123456789-_".data

def b64Char (n : Nat) : Char := b64Alphabet.getD n (Char.ofNat 65)

/-- Standard base64 chunking: 3 input bytes become 4 output characters,
with trailing groups padded by 61 (the pad character). -/
def b64EncodeChunks : List Nat → List Char
  | b0 :: b1 :: b2 :: rest =>
    b64Char (b0 / 4) :: b64Char (b0 % 4 * 16 + b1 / 16) ::
    b64Char (b1 % 16 * 4 + b2 / 64) :: b64Char (b2 % 64) :: b64EncodeChunks rest
  | [b0, b1] =>
    [b64Char (b0 / 4), b64Char (b0 % 4 * 16 + b1 / 16), b64Char (b1 % 16 * 4),
     Char.ofNat 61]
  | [b0] =>
    [b64Char (b0 / 4), b64Char (b0 % 4 * 16), Char.ofNat 61, Char.ofNat 61]
  | [] => []

/-- gemini.py url_safe_b64encode: urlsafe base64 of the bytes with the
trailing pad characters stripped (rstrip of 61). -/
def url_safe_b64encode (data : List Nat) : String :=
  String.mk (((b64EncodeChunks data).reverse.dropWhile
    (fun c => c = Char.ofNat 61)).reverse)

/-! ## kq_encode (gemini.py lines 140-150)

The Python routine walks the characters of the string and appends to a
bytearray: code points above 255 contribute `val AND 255` then `val >> 8`
(here `val % 256` and `val / 256`), others contribute `val` itself.
bytearray.append raises ValueError for a value outside 0..255, which is
modelled by the Option-valued accumulator. -/

def kqAppendByte (arr : Option (List Nat)) (b : Nat) : Option (List Nat) :=
  match arr with
  | none => none
  | some a => if b < 256 then some (a ++ [b]) else none

def kqStep (arr : Option (List Nat)) (c : Char) : Option (List Nat) :=
  let val := c.toNat
  if val > 255 then kqAppendByte (kqAppendByte arr (val % 256)) (val / 256)
  else kqAppendByte arr val

def kq_encode (s : String) : Option String :=
  match s.data.foldl kqStep (some []) with
  | none => none
  | some bytes => some (url_safe_b64encode bytes)

/-- The byte-widening transform as the specification words it: one byte for
a code point up to 255, otherwise the low byte then the high byte. -/
def kqWidenSpec (c : Char) : List Nat :=
  if c.toNat ≤ 255 then [c.toNat] else [c.toNat % 256, c.toNat / 256]

/-! ## Image cache sweep (gemini.py lines 319-335) -/

structure CacheFile where
  name : String
  mtime : Int
deriving DecidableEq

def IMAGE_CACHE_HOURS : Nat := 1

/-- cleanup_expired_images: every regular file whose modification-time age
strictly exceeds IMAGE_CACHE_HOURS * 3600 seconds is unlinked; the function
returns the files that remain. -/
def cleanup_expired_images (now : Int) (files : List CacheFile) : List CacheFile :=
  files.filter (fun f => !decide (now - f.mtime > (IMAGE_CACHE_HOURS : Int) * 3600))

/-! ## Image serving (gemini.py lines 942-964) -/

def listStartsWith : List Char → List Char → Bool
  | _, [] => true
  | [], _ :: _ => false
  | a :: as, b :: bs => a = b && listStartsWith as bs

def listHasInfix : List Char → List Char → Bool
  | [], pat => pat.isEmpty
  | c :: rest, pat => listStartsWith (c :: rest) pat || listHasInfix rest pat

/-- Python substring membership, as in the expression testing the filename. -/
def hasSubstr (s pat : String) : Bool := listHasInfix s.data pat.data

/-- pathlib suffix of the final path component: the part from the last dot,
empty when the name has no dot, starts with its only dot, or ends in a dot. -/
def pathSuffix (filename : String) : String :=
  let name := (filename.splitOn "/").getLastD ""
  match name.splitOn "." with
  | [] => ""
  | [_] => ""
  | p :: rest =>
    let last := (p :: rest).getLastD ""
    if last = "" then ""
    else if p = "" ∧ rest.length = 1 then ""
    else "." ++ last

def serve_mime (ext : String) : String :=
  if ext = ".png" then "image/png"
  else if ext = ".jpg" then "image/jpeg"
  else if ext = ".jpeg" then "image/jpeg"
  else if ext = ".gif" then "image/gif"
  else if ext = ".webp" then "image/webp"
  else "application/octet-stream"

inductive ServeResult
  | traversalRejected
  | missing
  | file (mime : String)
deriving DecidableEq

/-- serve_image: the traversal guard runs first; only past it is the cache
directory consulted, modelled by the fsExists oracle. -/
def serve_image (filename : String) (fsExists : String → Bool) : ServeResult :=
  if hasSubstr filename ".." || filename.startsWith "/" then
    ServeResult.traversalRejected
  else if !(fsExists filename) then ServeResult.missing
  else ServeResult.file (serve_mime (pathSuffix filename).toLower)

/-! ## Account pool (gemini.py AccountManager, lines 49-115)

An account is the configured dict: credentials plus the persisted
availability flag with its reason/timestamp side channel.  The runtime
account_states entry keeps the cached jwt, its issue time, the cached
session and a mirror of the availability flag. -/

structure Account where
  available : Bool := true
  unavailableReason : Option String := none
  unavailableTime : Option Nat := none
  secureCSes : String := "ses"
  hostCOses : String := "oses"
  csesidx : String := "idx"
  teamId : Option String := some "team"
deriving DecidableEq

instance : Inhabited Account := ⟨{}⟩

structure AccState where
  jwt : Option String := none
  jwtTime : Nat := 0
  session : Option String := none
  available : Bool := true
deriving DecidableEq

instance : Inhabited AccState := ⟨{}⟩

structure PoolState where
  accounts : List Account
  states : List AccState
  currentIndex : Nat
deriving DecidableEq

/-- get_available_accounts: the enumerated accounts whose runtime state is
available (missing state defaults to available). -/
def get_available_accounts (s : PoolState) : List (Nat × Account) :=
  s.accounts.enum.filter
    (fun p => ((s.states.get? p.1).map AccState.available).getD true)

/-- get_next_account: with no available account the call raises (none);
otherwise the cursor is first reduced modulo the available-list length, the
account at the reduced cursor is returned, and the cursor advances by one
modulo the same length. -/
def get_next_account (s : PoolState) : Option ((Nat × Account) × PoolState) :=
  let available := get_available_accounts s
  if h : available.length = 0 then none
  else
    let c := s.currentIndex % available.length
    some (available.get ⟨c, Nat.mod_lt _ (Nat.pos_of_ne_zero h)⟩,
      { s with currentIndex := (c + 1) % available.length })

/-- Consecutive selections: the list of accounts returned by n successive
get_next_account calls with no interleaved availability change. -/
def selectSeq : Nat → PoolState → List (Nat × Account) × PoolState
  | 0, s => ([], s)
  | n + 1, s =>
    match get_next_account s with
    | none => ([], s)
    | some (a, s') =>
      let rest := selectSeq n s'
      (a :: rest.1, rest.2)

/-- In-place element update at an index, as Python list/dict assignment. -/
def updateAt {α : Type} : List α → Nat → (α → α) → List α
  | [], _, _ => []
  | a :: l, 0, f => f a :: l
  | a :: l, n + 1, f => a :: updateAt l n f

/-- mark_account_unavailable: inside the index bound, flips the persisted
flag, records the reason string and the current timestamp, and mirrors the
flag into the runtime state. -/
def mark_account_unavailable (s : PoolState) (idx : Nat) (reason : String)
    (now : Nat) : PoolState :=
  if idx < s.accounts.length then
    { s with
      accounts := updateAt s.accounts idx (fun a =>
        { a with available := false, unavailableReason := some reason,
                 unavailableTime := some now }),
      states := updateAt s.states idx (fun st => { st with available := false }) }
  else s

/-! ## Token forge (gemini.py lines 190-253)

The HTTP exchange is modelled by its observable response: the status code
and the result of JSON-parsing the body after stripping the anti-hijacking
marker (none when the body is not valid JSON), with the two looked-up keys
as optional fields.  create_jwt and decode_xsrf_token feed an HMAC digest
and a byte-level base64 decode; both primitives are abstract parameters. -/

structure TokenBody where
  keyId : Option String := none
  xsrfToken : Option String := none
deriving DecidableEq

structure TokenResp where
  status : Nat := 200
  parsed : Option TokenBody := none
deriving DecidableEq

/-- get_jwt_for_account.  The credential precheck raises ValueError before
the network call; afterwards the function reads the parsed body only:
json.loads failure, a missing keyId or a missing xsrfToken each raise, and
the status code is never consulted.  On success the minted token is
returned. -/
def get_jwt_for_account
    (createJwt : List Nat → String → String → Nat → String)
    (b64dec : String → Option (List Nat))
    (acc : Account) (resp : TokenResp) (now : Nat) : Except String String :=
  if acc.secureCSes = "" ∨ acc.csesidx = "" then
    Except.error "缺少 secure_c_ses 或 csesidx"
  else
    match resp.parsed with
    | none => Except.error "JSONDecodeError"
    | some body =>
      match body.keyId with
      | none => Except.error "KeyError: keyId"
      | some kid =>
        match body.xsrfToken with
        | none => Except.error "KeyError: xsrfToken"
        | some tok =>
          match b64dec tok with
          | none => Except.error "binascii.Error"
          | some keyBytes => Except.ok (createJwt keyBytes kid acc.csesidx now)

/-- ensure_jwt_for_account: refresh when no token is cached or its age
exceeds 240 seconds; a refresh failure marks the account unavailable with
the error text and the current timestamp and re-raises. -/
def ensure_jwt_for_account
    (createJwt : List Nat → String → String → Nat → String)
    (b64dec : String → Option (List Nat))
    (s : PoolState) (idx : Nat) (acc : Account) (resp : TokenResp)
    (now : Nat) : Except String String × PoolState :=
  let st := (s.states.get? idx).getD {}
  if st.jwt = none ∨ 240 < now - st.jwtTime then
    match get_jwt_for_account createJwt b64dec acc resp now with
    | Except.ok jwt =>
      let newStates :=
        updateAt s.states idx (fun st2 => { st2 with jwt := some jwt, jwtTime := now })
      (Except.ok jwt, { s with states := newStates })
    | Except.error e => (Except.error e, mark_account_unavailable s idx e now)
  else (Except.ok (st.jwt.getD ""), s)

/-! ## Session broker (gemini.py lines 256-295) -/

structure SessResp where
  status : Nat := 200
  sessionName : Option String := none
deriving DecidableEq

/-- create_chat_session on its response.  A non-200 status raises before the
session name is read; the 401 branch first evaluates a console hint that
references the name `account`, which is not defined in that scope, so the
branch raises NameError instead of reaching the formatted raise.  On 200 the
(optional) canonical session name is returned. -/
def create_chat_session (status : Nat) (respSessionName : Option String) :
    Except String (Option String) :=
  if status ≠ 200 then
    if status = 401 then Except.error "NameError: name account is not defined"
    else Except.error ("创建会话失败: " ++ toString status)
  else Except.ok respSessionName

/-- ensure_session_for_account: first ensure the jwt, then lazily create and
cache the session; a creation failure propagates with the state otherwise
untouched. -/
def ensure_session_for_account
    (createJwt : List Nat → String → String → Nat → String)
    (b64dec : String → Option (List Nat))
    (s : PoolState) (idx : Nat) (acc : Account) (tresp : TokenResp)
    (sresp : SessResp) (now : Nat) :
    Except String (Option String × String × Option String) × PoolState :=
  match ensure_jwt_for_account createJwt b64dec s idx acc tresp now with
  | (Except.error e, s1) => (Except.error e, s1)
  | (Except.ok jwt, s1) =>
    let st := (s1.states.get? idx).getD {}
    match st.session with
    | some sess => (Except.ok (some sess, jwt, acc.teamId), s1)
    | none =>
      match create_chat_session sresp.status sresp.sessionName with
      | Except.error e => (Except.error e, s1)
      | Except.ok sn =>
        let newStates := updateAt s1.states idx (fun st2 => { st2 with session := sn })
        (Except.ok (sn, jwt, acc.teamId), { s1 with states := newStates })

/-! ## Dispatcher loop (gemini.py chat_completions, lines 812-833)

The body of one loop iteration (select account, ensure session, send) is
modelled by an oracle giving each iteration its outcome.  The loop makes up
to max_retries iterations, breaks on the first success, records each raised
error as last_error, and after exhausting the range reports the failure
carrying last_error (still None when the range was empty).  The second
component counts the iterations performed. -/

def dispatchAux {R : Type} (attempt : Nat → Except String R) :
    Nat → Nat → Option String → Except (Option String) R × Nat
  | _, 0, lastErr => (Except.error lastErr, 0)
  | start, fuel + 1, _ =>
    match attempt start with
    | Except.ok r => (Except.ok r, 1)
    | Except.error e =>
      let rest := dispatchAux attempt (start + 1) fuel (some e)
      (rest.1, rest.2 + 1)

/-- The retry loop of chat_completions with max_retries = the total number
of configured accounts. -/
def chat_completions_dispatch {R : Type} (s : PoolState)
    (attempt : Nat → Except String R) : Except (Option String) R × Nat :=
  dispatchAux attempt 0 s.accounts.length none

/-! ## Response assembler, text walk (gemini.py lines 582-675)

Envelopes are modelled by the fields the walk reads on the text path:
streamAssistResponse may be absent (falsy → continue), answer may be absent
(`or` to an empty dict), replies default to the empty list, and each reply
carries groundedContent.content with its text and thought flag. -/

structure ContentC where
  text : String := ""
  thought : Bool := false
deriving DecidableEq

structure GroundedC where
  content : ContentC := {}
deriving DecidableEq

structure ReplyC where
  groundedContent : GroundedC := {}
deriving DecidableEq

structure AnswerC where
  replies : List ReplyC := []
deriving DecidableEq

structure SARC where
  session : Option String := none
  answer : Option AnswerC := none
deriving DecidableEq

structure EnvelopeC where
  streamAssistResponse : Option SARC := none
deriving DecidableEq

structure TextAssembly where
  text : String
  thoughts : List String
deriving DecidableEq

/-- The texts list accumulated by the envelope walk: a reply text is
appended exactly when it is non-empty and its thought flag is false. -/
def collect_texts (envs : List EnvelopeC) : List String :=
  envs.foldl
    (fun texts env =>
      match env.streamAssistResponse with
      | none => texts
      | some sar =>
        (sar.answer.getD {}).replies.foldl
          (fun ts reply =>
            if reply.groundedContent.content.text ≠ "" ∧
                reply.groundedContent.content.thought = false
            then ts ++ [reply.groundedContent.content.text]
            else ts)
          texts)
    []

/-- The ChatResponse text fields produced by stream_chat_with_images: the
final text joins the collected texts; the thoughts field of the dataclass is
initialized empty and never appended to anywhere in the function. -/
def stream_chat_text_result (envs : List EnvelopeC) : TextAssembly :=
  { text := String.join (collect_texts envs), thoughts := [] }

/-- The reply texts that are non-empty and not thought-flagged, in stream
encounter order, as the specification words the final text. -/
def nonThoughtTexts (envs : List EnvelopeC) : List String :=
  envs.flatMap
    (fun env =>
      match env.streamAssistResponse with
      | none => []
      | some sar =>
        (sar.answer.getD {}).replies.filterMap
          (fun reply =>
            if reply.groundedContent.content.text ≠ "" ∧
                reply.groundedContent.content.thought = false
            then some reply.groundedContent.content.text
            else none))

/-- The thought-flagged non-empty reply texts, in encounter order: what the
specification says is retained in the thoughts list. -/
def thoughtTexts (envs : List EnvelopeC) : List String :=
  envs.flatMap
    (fun env =>
      match env.streamAssistResponse with
      | none => []
      | some sar =>
        (sar.answer.getD {}).replies.filterMap
          (fun reply =>
            if reply.groundedContent.content.text ≠ "" ∧
                reply.groundedContent.content.thought = true
            then some reply.groundedContent.content.text
            else none))

/-! ## Inbound message extraction (gemini.py lines 366-414 and 797-810) -/

inductive ImageUrlField
  | str (u : String)
  | obj (url : String)
deriving DecidableEq

inductive ContentPart
  | text (t : String)
  | imageUrl (f : ImageUrlField)
  | other
deriving DecidableEq

inductive MsgContent
  | str (s : String)
  | parts (ps : List ContentPart)
  | rendered (r : String)
deriving DecidableEq

structure Message where
  role : String
  content : MsgContent
deriving DecidableEq

inductive InputImage
  | b64 (mime : String) (data : String)
  | url (u : String)
deriving DecidableEq

def partUrl : ImageUrlField → String
  | ImageUrlField.str u => u
  | ImageUrlField.obj url => url

/-- The data-URI pattern of extract_images_from_openai_content: after the
data: marker, a non-empty run of non-semicolon characters, the literal
base64 marker, then a non-empty run of non-newline characters. -/
def parseDataUri (url : String) : Option (String × String) :=
  let rest := (url.drop 5).data
  let mime := rest.takeWhile (fun c => c ≠ Char.ofNat 59)
  if mime.length = 0 then none
  else
    let after := rest.drop mime.length
    if listStartsWith after ";base64,".data then
      let dataPart := (after.drop 8).takeWhile (fun c => c ≠ Char.ofNat 10)
      if dataPart.length = 0 then none
      else some (String.mk mime, String.mk dataPart)
    else none

/-- One image_url part: a data: URL yields a base64 image when the pattern
matches and nothing otherwise; any other URL (the empty string included) is
kept as a plain URL. -/
def imageOfUrl (url : String) : Option InputImage :=
  if url.startsWith "data:" then
    match parseDataUri url with
    | some (m, d) => some (InputImage.b64 m d)
    | none => none
  else some (InputImage.url url)

/-- extract_images_from_openai_content: a string content is the text with no
images; a non-string non-list content is its string rendering; a part list
accumulates text parts (joined by newlines) and image_url parts in order. -/
def extract_images_from_openai_content : MsgContent → String × List InputImage
  | MsgContent.str s => (s, [])
  | MsgContent.rendered r => (r, [])
  | MsgContent.parts ps =>
    let acc := ps.foldl
      (fun (acc : List String × List InputImage) p =>
        match p with
        | ContentPart.text t => (acc.1 ++ [t], acc.2)
        | ContentPart.imageUrl f =>
          match imageOfUrl (partUrl f) with
          | some i => (acc.1, acc.2 ++ [i])
          | none => acc
        | ContentPart.other => acc)
      ([], [])
    (String.intercalate (String.mk [Char.ofNat 10]) acc.1, acc.2)

/-- One iteration of the message loop of chat_completions: a user message
overwrites user_message when its extracted text is non-empty and always
extends input_images; any other role is skipped. -/
def userMsgStep (acc : String × List InputImage) (msg : Message) :
    String × List InputImage :=
  if msg.role = "user" then
    let ti := extract_images_from_openai_content msg.content
    (if ti.1 ≠ "" then ti.1 else acc.1, acc.2 ++ ti.2)
  else acc

/-- The message loop of chat_completions, starting from the empty
user_message and image list. -/
def extract_user_input (messages : List Message) : String × List InputImage :=
  messages.foldl userMsgStep ("", [])

/-! ## Shared list helpers -/

theorem listGetD_eq_get {α : Type} (l : List α) (d : α) {i : Nat}
    (h : i < l.length) : l.getD i d = l.get ⟨i, h⟩ := by
  rw [List.getD_eq_get?, List.get?_eq_get h]
  rfl

theorem updateAt_get?_self {α : Type} :
    ∀ (l : List α) (idx : Nat) (f : α → α), idx < l.length →
      (updateAt l idx f).get? idx = (l.get? idx).map f := by
  intro l
  induction l with
  | nil => intro idx f h; simp at h
  | cons a t ih =>
    intro idx f h
    cases idx with
    | zero => rfl
    | succ j => exact ih j f (Nat.lt_of_succ_lt_succ h)

/-! ## C6: the kq byte-widening transform -/

theorem kq_fold_eq (cs : List Char) :
    ∀ acc : List Nat, (∀ c ∈ cs, c.toNat ≤ 65535) →
      cs.foldl kqStep (some acc) = some (acc ++ cs.flatMap kqWidenSpec) := by
  induction cs with
  | nil => intro acc _; simp
  | cons c t ih =>
    intro acc hbound
    have hc : c.toNat ≤ 65535 := hbound c (List.mem_cons_self c t)
    have ht : ∀ x ∈ t, x.toNat ≤ 65535 := fun x hx => hbound x (List.mem_cons_of_mem c hx)
    by_cases hgt : c.toNat > 255
    · have hlo : c.toNat % 256 < 256 := Nat.mod_lt _ (by omega)
      have hhi : c.toNat / 256 < 256 := by omega
      have hstep : kqStep (some acc) c = some (acc ++ [c.toNat % 256, c.toNat / 256]) := by
        simp [kqStep, kqAppendByte, hgt, hlo, hhi]
      have hspec : kqWidenSpec c = [c.toNat % 256, c.toNat / 256] := by
        simp [kqWidenSpec]; omega
      simp only [List.foldl_cons, hstep, ih _ ht, List.flatMap_cons, hspec,
        List.append_assoc, List.cons_append, List.nil_append]
    · have hstep : kqStep (some acc) c = some (acc ++ [c.toNat]) := by
        simp [kqStep, kqAppendByte, hgt]
        omega
      have hspec : kqWidenSpec c = [c.toNat] := by
        simp [kqWidenSpec]; omega
      simp only [List.foldl_cons, hstep, ih _ ht, List.flatMap_cons, hspec,
        List.append_assoc, List.cons_append, List.nil_append]

/-- C6 (amended): for every input string all of whose characters lie in the
basic multilingual plane, kq_encode succeeds and equals the padless urlsafe
base64 of the per-character widened bytes: one byte for a code point up to
255, otherwise the low byte then the high byte.  (For a code point above
65535 the high byte exceeds 255 and the bytearray append faults, see the
counterexample.) -/
theorem c6_kq_encode_widening (s : String)
    (h : ∀ c ∈ s.data, c.toNat ≤ 65535) :
    kq_encode s = some (url_safe_b64encode (s.data.flatMap kqWidenSpec)) := by
  unfold kq_encode
  rw [kq_fold_eq s.data [] h]
  simp

/-- C6 witness: the theorem applied to the one-character string spelled A. -/
theorem c6_kq_encode_widening_witness :
    kq_encode "A" = some (url_safe_b64encode ("A".data.flatMap kqWidenSpec)) :=
  c6_kq_encode_widening "A" (by decide)

/-- C6 counterexample: on the string holding the single code point 65536
(outside the BMP) the claimed two-byte widening does not happen: the high
byte 256 is out of bytearray range and kq_encode faults, so it does not
produce the encoding the claim promises for every input string. -/
theorem c6_kq_encode_counterexample :
    kq_encode (String.mk [Char.ofNat 65536]) = none ∧
      (Char.ofNat 65536).toNat > 255 := by
  constructor
  · rfl
  · decide

/-! ## C7: path-traversal guard of the image endpoint -/

/-- C7: a requested filename containing a dot-dot segment or starting with
the path separator is rejected by serve_image before the cache directory is
consulted: the outcome is the early rejection for every possible state of
the filesystem oracle. -/
theorem c7_serve_image_traversal (filename : String)
    (h : hasSubstr filename ".." = true ∨ filename.startsWith "/" = true) :
    ∀ fsExists : String → Bool,
      serve_image filename fsExists = ServeResult.traversalRejected := by
  intro fsExists
  unfold serve_image
  rcases h with h | h <;> simp [h]

/-- C7 witness: a traversal name is rejected even when the oracle says a
file of that literal name exists. -/
theorem c7_serve_image_traversal_witness :
    serve_image "../secret.png" (fun _ => true) = ServeResult.traversalRejected :=
  c7_serve_image_traversal "../secret.png" (Or.inl (by decide)) (fun _ => true)

/-! ## C8: TTL sweep of the image cache -/

/-- C8: a sweep keeps exactly the files whose modification-time age is at
most the TTL (one hour), deleting exactly those whose age exceeds it; with a
1-hour TTL a file 90 minutes old is removed and a file 30 minutes old is
kept. -/
theorem c8_cleanup_ttl (now : Int) (files : List CacheFile) :
    (∀ f : CacheFile,
      f ∈ cleanup_expired_images now files ↔
        f ∈ files ∧ now - f.mtime ≤ (IMAGE_CACHE_HOURS : Int) * 3600) ∧
    cleanup_expired_images 100000
        [{ name := "thirty", mtime := 98200 }, { name := "ninety", mtime := 94600 }]
      = [{ name := "thirty", mtime := 98200 }] := by
  constructor
  · intro f
    simp only [cleanup_expired_images, List.mem_filter, Bool.not_eq_eq_eq_not,
      Bool.not_true, decide_eq_false_iff_not, not_lt]
  · decide

/-! ## C9: selection stays inside the available list -/

/-- C9: whenever the available list is non-empty, get_next_account succeeds
and the returned pair is an element of the current available list — the
cursor is reduced modulo the current length before indexing, so a stale
cursor cannot fault. -/
theorem c9_selection_in_available (s : PoolState)
    (h : get_available_accounts s ≠ []) :
    ∃ pr s', get_next_account s = some (pr, s') ∧ pr ∈ get_available_accounts s := by
  have hlen : (get_available_accounts s).length ≠ 0 := by
    simpa [List.length_eq_zero] using h
  unfold get_next_account
  rw [dif_neg hlen]
  exact ⟨_, _, rfl, List.get_mem _ _ _⟩

def poolC9 : PoolState :=
  { accounts := [{ csesidx := "a0" }, { csesidx := "a1" }],
    states := [{ available := false }, {}],
    currentIndex := 7 }

/-- C9 witness: a pool with one unavailable account and a cursor far past
the end of the shrunken available list. -/
theorem c9_selection_in_available_witness :
    ∃ pr s', get_next_account poolC9 = some (pr, s') ∧
      pr ∈ get_available_accounts poolC9 :=
  c9_selection_in_available poolC9 (by decide)

/-! ## C1: round-robin fairness of get_next_account -/

def dfltPair : Nat × Account := (0, {})

theorem get_next_account_eq (s : PoolState)
    (hne : (get_available_accounts s).length ≠ 0) :
    get_next_account s =
      some ((get_available_accounts s).get
          ⟨s.currentIndex % (get_available_accounts s).length,
           Nat.mod_lt _ (Nat.pos_of_ne_zero hne)⟩,
        { s with currentIndex :=
            (s.currentIndex % (get_available_accounts s).length + 1) %
              (get_available_accounts s).length }) := by
  unfold get_next_account
  rw [dif_neg hne]

theorem selectSeq_eq_map (n : Nat) :
    ∀ s : PoolState, 0 < (get_available_accounts s).length →
      (selectSeq n s).1 =
        (List.range n).map (fun i =>
          (get_available_accounts s).getD
            ((s.currentIndex + i) % (get_available_accounts s).length) dfltPair) := by
  induction n with
  | zero => intro s _; simp [selectSeq]
  | succ n ih =>
    intro s hpos
    have hne : (get_available_accounts s).length ≠ 0 := Nat.pos_iff_ne_zero.mp hpos
    have hstep := get_next_account_eq s hne
    have hs' : get_available_accounts
        { s with currentIndex :=
            (s.currentIndex % (get_available_accounts s).length + 1) %
              (get_available_accounts s).length } = get_available_accounts s := rfl
    simp only [selectSeq, hstep]
    have hihres := ih
      { s with currentIndex :=
          (s.currentIndex % (get_available_accounts s).length + 1) %
            (get_available_accounts s).length }
      (by rw [hs']; exact hpos)
    rw [hs'] at hihres
    rw [hihres, List.range_succ_eq_map, List.map_cons, List.map_map]
    congr 1
    · rw [Nat.add_zero]
      exact (listGetD_eq_get _ _ _).symm
    · apply List.map_congr_left
      intro i _
      have harith :
          ((s.currentIndex % (get_available_accounts s).length + 1) %
              (get_available_accounts s).length + i) %
            (get_available_accounts s).length =
          (s.currentIndex + Nat.succ i) % (get_available_accounts s).length := by
        rw [Nat.mod_add_mod, Nat.add_assoc, Nat.mod_add_mod, Nat.succ_eq_add_one]
        rw [Nat.add_comm 1 i]
      simp only [Function.comp_apply, harith]

theorem map_range_getD_eq_rotate (A : List (Nat × Account)) (c : Nat)
    (hpos : 0 < A.length) :
    (List.range A.length).map (fun i => A.getD ((c + i) % A.length) dfltPair) =
      A.rotate (c % A.length) := by
  apply List.ext_get
  · simp
  · intro i h1 h2
    simp only [List.get_map, List.get_range, List.get_rotate]
    rw [listGetD_eq_get A dfltPair (Nat.mod_lt _ hpos)]
    congr 1
    apply Fin.ext
    show (c + i) % A.length = (i + c % A.length) % A.length
    rw [Nat.add_comm i (c % A.length), Nat.mod_add_mod, Nat.add_comm c i,
      Nat.add_comm i c]

/-- C1: with a non-empty available list of length k and no availability
change between calls, k consecutive get_next_account selections return the
available list rotated by the reduced cursor — every available account
exactly once, in the cyclic order induced by account index, independent of
the unavailable accounts. -/
theorem c1_round_robin (s : PoolState) (k : Nat)
    (hk : k = (get_available_accounts s).length) (hpos : 0 < k) :
    (selectSeq k s).1 =
        (get_available_accounts s).rotate (s.currentIndex % k) ∧
      List.Perm ((selectSeq k s).1) (get_available_accounts s) := by
  subst hk
  have h1 := selectSeq_eq_map (get_available_accounts s).length s hpos
  have h2 := map_range_getD_eq_rotate (get_available_accounts s) s.currentIndex hpos
  refine ⟨h1.trans h2, ?_⟩
  rw [h1.trans h2]
  exact List.rotate_perm _ _

def poolC1 : PoolState :=
  { accounts := [{ csesidx := "a0" }, { csesidx := "a1" }, { csesidx := "a2" }],
    states := [{}, { available := false }, {}],
    currentIndex := 5 }

/-- C1 witness: three configured accounts with the middle one unavailable
and a stale cursor; the two consecutive selections are the rotated available
list and a permutation of it. -/
theorem c1_round_robin_witness :
    (selectSeq 2 poolC1).1 =
        (get_available_accounts poolC1).rotate (poolC1.currentIndex % 2) ∧
      List.Perm ((selectSeq 2 poolC1).1) (get_available_accounts poolC1) :=
  c1_round_robin poolC1 2 (by decide) (by decide)

/-! ## C2: dispatch attempt bound, first success, last error -/

theorem dispatchAux_succ {R : Type} (attempt : Nat → Except String R)
    (start fuel : Nat) (last : Option String) :
    dispatchAux attempt start (fuel + 1) last =
      match attempt start with
      | Except.ok r => (Except.ok r, 1)
      | Except.error e =>
        ((dispatchAux attempt (start + 1) fuel (some e)).1,
         (dispatchAux attempt (start + 1) fuel (some e)).2 + 1) := rfl

theorem dispatchAux_count_le {R : Type} (attempt : Nat → Except String R) :
    ∀ (fuel start : Nat) (last : Option String),
      (dispatchAux attempt start fuel last).2 ≤ fuel := by
  intro fuel
  induction fuel with
  | zero => intro start last; simp [dispatchAux]
  | succ n ih =>
    intro start last
    cases h : attempt start with
    | ok r => simp [dispatchAux, h]
    | error e =>
      simp only [dispatchAux, h]
      exact Nat.succ_le_succ (ih (start + 1) (some e))

theorem dispatchAux_first_success {R : Type} (attempt : Nat → Except String R) :
    ∀ (i fuel start : Nat) (last : Option String) (r : R), i < fuel →
      attempt (start + i) = Except.ok r →
      (∀ j, j < i → ∃ e, attempt (start + j) = Except.error e) →
      dispatchAux attempt start fuel last = (Except.ok r, i + 1) := by
  intro i
  induction i with
  | zero =>
    intro fuel start last r hlt hok _
    cases fuel with
    | zero => omega
    | succ n =>
      rw [Nat.add_zero] at hok
      simp [dispatchAux, hok]
  | succ i ih =>
    intro fuel start last r hlt hok hprev
    cases fuel with
    | zero => omega
    | succ n =>
      obtain ⟨e0, he0⟩ := hprev 0 (Nat.succ_pos i)
      rw [Nat.add_zero] at he0
      simp only [dispatchAux, he0]
      have hok' : attempt (start + 1 + i) = Except.ok r := by
        rw [show start + 1 + i = start + (i + 1) from by omega]
        exact hok
      have hprev' : ∀ j, j < i → ∃ e, attempt (start + 1 + j) = Except.error e := by
        intro j hj
        obtain ⟨e, he⟩ := hprev (j + 1) (Nat.succ_lt_succ hj)
        exact ⟨e, by rw [show start + 1 + j = start + (j + 1) from by omega]; exact he⟩
      rw [ih n (start + 1) (some e0) r (Nat.lt_of_succ_lt_succ hlt) hok' hprev']

theorem dispatchAux_all_fail {R : Type} (attempt : Nat → Except String R) :
    ∀ (fuel start : Nat) (last : Option String) (e : String), 0 < fuel →
      (∀ j, j < fuel → ∃ e2, attempt (start + j) = Except.error e2) →
      attempt (start + fuel - 1) = Except.error e →
      dispatchAux attempt start fuel last = (Except.error (some e), fuel) := by
  intro fuel
  induction fuel with
  | zero => intro start last e h; omega
  | succ n ih =>
    intro start last e _ hall hlast
    obtain ⟨e0, he0⟩ := hall 0 (Nat.succ_pos n)
    rw [Nat.add_zero] at he0
    cases n with
    | zero =>
      have : e0 = e := by
        rw [show start + 1 - 1 = start from by omega] at hlast
        rw [he0] at hlast
        exact (Except.error.injEq _ _).mp hlast
      subst this
      simp [dispatchAux, he0]
    | succ m =>
      rw [dispatchAux_succ, he0]
      dsimp only
      have hall' : ∀ j, j < m + 1 → ∃ e2, attempt (start + 1 + j) = Except.error e2 := by
        intro j hj
        obtain ⟨e2, he2⟩ := hall (j + 1) (Nat.succ_lt_succ hj)
        exact ⟨e2, by rw [show start + 1 + j = start + (j + 1) from by omega]; exact he2⟩
      have hlast' : attempt (start + 1 + (m + 1) - 1) = Except.error e := by
        rw [show start + 1 + (m + 1) - 1 = start + (m + 1 + 1) - 1 from by omega]
        exact hlast
      rw [ih (start + 1) (some e0) e (Nat.succ_pos m) hall' hlast']

/-- C2: the dispatcher performs at most N iterations where N is the total
configured account count; with the first i attempts raising and attempt i
succeeding (i within range) it returns that result after exactly i + 1
attempts, making no further ones; and when every attempt in range raises it
reports the failure carrying the text of the last raised error after
exactly N attempts. -/
theorem c2_dispatch_failover {R : Type} (s : PoolState)
    (attempt : Nat → Except String R) :
    (chat_completions_dispatch s attempt).2 ≤ s.accounts.length ∧
    (∀ i r, i < s.accounts.length → attempt i = Except.ok r →
      (∀ j, j < i → ∃ e, attempt j = Except.error e) →
      chat_completions_dispatch s attempt = (Except.ok r, i + 1)) ∧
    (∀ e, 0 < s.accounts.length →
      (∀ j, j < s.accounts.length → ∃ e2, attempt j = Except.error e2) →
      attempt (s.accounts.length - 1) = Except.error e →
      chat_completions_dispatch s attempt =
        (Except.error (some e), s.accounts.length)) := by
  refine ⟨dispatchAux_count_le attempt _ 0 none, ?_, ?_⟩
  · intro i r hlt hok hprev
    exact dispatchAux_first_success attempt i s.accounts.length 0 none r hlt
      (by simpa using hok) (by simpa using hprev)
  · intro e hpos hall hlast
    exact dispatchAux_all_fail attempt s.accounts.length 0 none e hpos
      (by simpa using hall) (by simpa using hlast)

def poolC2 : PoolState :=
  { accounts := [{ csesidx := "b0" }, { csesidx := "b1" }, { csesidx := "b2" }],
    states := [{}, {}, {}],
    currentIndex := 0 }

def attemptsC2 : Nat → Except String Nat := fun i =>
  if i = 0 then Except.error "boom0"
  else if i = 1 then Except.error "boom1"
  else Except.ok 42

/-- C2 witness: three accounts, the first two attempts raise and the third
succeeds — the dispatcher returns the third result after exactly three
attempts. -/
theorem c2_dispatch_failover_witness :
    chat_completions_dispatch poolC2 attemptsC2 = (Except.ok 42, 3) :=
  (c2_dispatch_failover poolC2 attemptsC2).2.1 2 42 (by decide) rfl
    (by
      intro j hj
      interval_cases j
      · exact ⟨"boom0", rfl⟩
      · exact ⟨"boom1", rfl⟩)

/-! ## C3: text assembly and the thoughts list -/

theorem reply_fold_eq (replies : List ReplyC) :
    ∀ acc : List String,
      replies.foldl
          (fun ts reply =>
            if reply.groundedContent.content.text ≠ "" ∧
                reply.groundedContent.content.thought = false
            then ts ++ [reply.groundedContent.content.text]
            else ts) acc
        = acc ++ replies.filterMap
            (fun reply =>
              if reply.groundedContent.content.text ≠ "" ∧
                  reply.groundedContent.content.thought = false
              then some reply.groundedContent.content.text
              else none) := by
  induction replies with
  | nil => intro acc; simp
  | cons r t ih =>
    intro acc
    by_cases h : r.groundedContent.content.text ≠ "" ∧
        r.groundedContent.content.thought = false
    · simp [List.foldl_cons, List.filterMap_cons, h, ih, List.append_assoc]
    · simp [List.foldl_cons, List.filterMap_cons, h, ih]

theorem collect_texts_fold (envs : List EnvelopeC) :
    ∀ acc : List String,
      envs.foldl
          (fun texts env =>
            match env.streamAssistResponse with
            | none => texts
            | some sar =>
              (sar.answer.getD {}).replies.foldl
                (fun ts reply =>
                  if reply.groundedContent.content.text ≠ "" ∧
                      reply.groundedContent.content.thought = false
                  then ts ++ [reply.groundedContent.content.text]
                  else ts)
                texts) acc
        = acc ++ nonThoughtTexts envs := by
  induction envs with
  | nil => intro acc; simp [nonThoughtTexts]
  | cons env t ih =>
    intro acc
    simp only [List.foldl_cons]
    cases hsar : env.streamAssistResponse with
    | none =>
      rw [ih acc]
      simp [nonThoughtTexts, hsar]
    | some sar =>
      rw [ih]
      dsimp only
      rw [reply_fold_eq]
      simp [nonThoughtTexts, hsar, List.append_assoc]

theorem collect_texts_eq (envs : List EnvelopeC) :
    collect_texts envs = nonThoughtTexts envs := by
  unfold collect_texts
  rw [collect_texts_fold envs []]
  simp

/-- C3 (amended): the final text of the assembled response joins, in stream
encounter order, exactly the non-empty reply texts not flagged as thoughts;
the thought-flagged texts are excluded from the final text, and the response
thoughts list is left empty rather than retaining them. -/
theorem c3_text_assembly (envs : List EnvelopeC) :
    (stream_chat_text_result envs).text = String.join (nonThoughtTexts envs) ∧
      (stream_chat_text_result envs).thoughts = [] := by
  refine ⟨?_, rfl⟩
  unfold stream_chat_text_result
  rw [collect_texts_eq]

def envsC3 : List EnvelopeC :=
  [{ streamAssistResponse := some
      { session := none,
        answer := some
          { replies :=
              [{ groundedContent := { content := { text := "ponder", thought := true } } },
               { groundedContent := { content := { text := "answer", thought := false } } }] } } }]

/-- C3 counterexample: a stream with a thought-flagged reply text does not
retain that text in the response thoughts list — the list stays empty, so
the claim that thought texts are kept in a separate ordered thoughts list
fails (while the final text indeed holds only the non-thought text). -/
theorem c3_thoughts_counterexample :
    thoughtTexts envsC3 = ["ponder"] ∧
      (stream_chat_text_result envsC3).thoughts = [] ∧
      (stream_chat_text_result envsC3).text = "answer" := by
  refine ⟨rfl, rfl, rfl⟩

/-! ## C10: last non-empty user text, all user images -/

theorem userMsg_fold (msgs : List Message) :
    ∀ (um : String) (imgs : List InputImage),
      msgs.foldl userMsgStep (um, imgs) =
        ((((msgs.filter (fun m => m.role = "user")).map
              (fun m => (extract_images_from_openai_content m.content).1)).filter
            (fun t => t ≠ "")).getLastD um,
         imgs ++ (msgs.filter (fun m => m.role = "user")).flatMap
            (fun m => (extract_images_from_openai_content m.content).2)) := by
  induction msgs with
  | nil => intro um imgs; simp
  | cons m t ih =>
    intro um imgs
    by_cases hrole : m.role = "user"
    · by_cases htext : (extract_images_from_openai_content m.content).1 ≠ ""
      · have hstep : userMsgStep (um, imgs) m =
            ((extract_images_from_openai_content m.content).1,
             imgs ++ (extract_images_from_openai_content m.content).2) := by
          simp [userMsgStep, hrole, htext]
        rw [List.foldl_cons, hstep, ih]
        simp only [List.filter_cons, hrole, decide_True, if_true, List.map_cons,
          htext, List.flatMap_cons, List.append_assoc, Prod.mk.injEq]
        refine ⟨?_, trivial⟩
        rw [if_pos (by simpa using htext), List.getLastD_cons]
      · have hstep : userMsgStep (um, imgs) m =
            (um, imgs ++ (extract_images_from_openai_content m.content).2) := by
          simp [userMsgStep, hrole, htext]
        rw [List.foldl_cons, hstep, ih]
        simp only [List.filter_cons, hrole, decide_True, if_true, List.map_cons,
          List.flatMap_cons, List.append_assoc, Prod.mk.injEq]
        refine ⟨?_, trivial⟩
        rw [if_neg (by simpa using htext)]
    · have hstep : userMsgStep (um, imgs) m = (um, imgs) := by
        simp [userMsgStep, hrole]
      rw [List.foldl_cons, hstep, ih]
      simp [List.filter_cons, hrole]

/-- C10: with multiple user messages, the text forwarded upstream is the
extracted text of the last user message whose extracted text is non-empty
(empty when none is), while the input images accumulate in order across
every user message, not only the last one. -/
theorem c10_user_extraction (messages : List Message) :
    extract_user_input messages =
      ((((messages.filter (fun m => m.role = "user")).map
            (fun m => (extract_images_from_openai_content m.content).1)).filter
          (fun t => t ≠ "")).getLastD "",
       (messages.filter (fun m => m.role = "user")).flatMap
          (fun m => (extract_images_from_openai_content m.content).2)) := by
  unfold extract_user_input
  rw [userMsg_fold messages "" []]
  simp

/-! ## C4: token-exchange failures and unavailability marking -/

theorem mark_account_unavailable_get (s : PoolState) (idx : Nat) (e : String)
    (now : Nat) (hidx : idx < s.accounts.length) :
    ∃ a0, (mark_account_unavailable s idx e now).accounts.get? idx = some a0 ∧
      a0.available = false ∧ a0.unavailableReason = some e ∧
      a0.unavailableTime = some now := by
  unfold mark_account_unavailable
  rw [if_pos hidx]
  dsimp only
  rw [updateAt_get?_self s.accounts idx _ hidx, List.get?_eq_get hidx]
  exact ⟨_, rfl, rfl, rfl, rfl⟩

/-- C4 (amended): the token forge never consults the HTTP status at all; it
fails exactly on a malformed body or missing key material, and any such
failure makes ensure_jwt_for_account mark the account unavailable,
recording the error text and the current timestamp on the account. -/
theorem c4_token_failure_marks_unavailable
    (cj : List Nat → String → String → Nat → String)
    (bd : String → Option (List Nat))
    (s : PoolState) (idx : Nat) (acc : Account) (resp : TokenResp) (now : Nat)
    (hcred : acc.secureCSes ≠ "" ∧ acc.csesidx ≠ "")
    (hidx : idx < s.accounts.length)
    (hfresh : ((s.states.get? idx).getD {}).jwt = none ∨
      240 < now - ((s.states.get? idx).getD {}).jwtTime)
    (hbad : resp.parsed = none ∨
      ∃ b, resp.parsed = some b ∧ (b.keyId = none ∨ b.xsrfToken = none)) :
    (∀ st2 : Nat,
      get_jwt_for_account cj bd acc { resp with status := st2 } now =
        get_jwt_for_account cj bd acc resp now) ∧
    (∃ e, get_jwt_for_account cj bd acc resp now = Except.error e ∧
      ensure_jwt_for_account cj bd s idx acc resp now =
        (Except.error e, mark_account_unavailable s idx e now) ∧
      ∃ a0, (mark_account_unavailable s idx e now).accounts.get? idx = some a0 ∧
        a0.available = false ∧ a0.unavailableReason = some e ∧
        a0.unavailableTime = some now) := by
  have hne : ¬(acc.secureCSes = "" ∨ acc.csesidx = "") := by
    rintro (h | h)
    · exact hcred.1 h
    · exact hcred.2 h
  refine ⟨?_, ?_⟩
  · intro st2
    cases resp
    rfl
  · have herr : ∃ e, get_jwt_for_account cj bd acc resp now = Except.error e := by
      rcases hbad with hp | ⟨b, hb, hk⟩
      · exact ⟨"JSONDecodeError", by simp [get_jwt_for_account, hne, hp]⟩
      · cases hkid : b.keyId with
        | none => exact ⟨"KeyError: keyId", by simp [get_jwt_for_account, hne, hb, hkid]⟩
        | some kid =>
          rcases hk with hk | hx
          · rw [hkid] at hk
            exact Option.noConfusion hk
          · exact ⟨"KeyError: xsrfToken",
              by simp [get_jwt_for_account, hne, hb, hkid, hx]⟩
    obtain ⟨e, he⟩ := herr
    refine ⟨e, he, ?_, mark_account_unavailable_get s idx e now hidx⟩
    unfold ensure_jwt_for_account
    dsimp only
    rw [if_pos hfresh, he]

def cjC4 : List Nat → String → String → Nat → String := fun _ _ _ _ => "token"

def bdC4 : String → Option (List Nat) := fun _ => some []

def accC4 : Account := { csesidx := "c4" }

def respC4bad : TokenResp := { status := 200, parsed := none }

def poolC4 : PoolState := { accounts := [accC4], states := [{}], currentIndex := 0 }

/-- C4 witness: a malformed token-exchange body makes the refresh fail and
mark account 0 unavailable with the error text and the timestamp 999. -/
theorem c4_token_failure_marks_unavailable_witness :
    (∀ st2 : Nat,
      get_jwt_for_account cjC4 bdC4 accC4 { respC4bad with status := st2 } 999 =
        get_jwt_for_account cjC4 bdC4 accC4 respC4bad 999) ∧
    (∃ e, get_jwt_for_account cjC4 bdC4 accC4 respC4bad 999 = Except.error e ∧
      ensure_jwt_for_account cjC4 bdC4 poolC4 0 accC4 respC4bad 999 =
        (Except.error e, mark_account_unavailable poolC4 0 e 999) ∧
      ∃ a0, (mark_account_unavailable poolC4 0 e 999).accounts.get? 0 = some a0 ∧
        a0.available = false ∧ a0.unavailableReason = some e ∧
        a0.unavailableTime = some 999) :=
  c4_token_failure_marks_unavailable cjC4 bdC4 poolC4 0 accC4 respC4bad 999
    (by decide) (by decide) (by decide) (Or.inl rfl)

/-- C4 counterexample: a response with HTTP status 500 but a well-formed
body carrying the key material makes the token forge succeed — the claimed
failure on every non-200 status does not happen, because the code never
checks the status. -/
theorem c4_status_ignored_counterexample :
    get_jwt_for_account cjC4 bdC4 accC4
        { status := 500, parsed := some { keyId := some "kid", xsrfToken := some "AAAA" } } 0
      = Except.ok "token" ∧ (500 : Nat) ≠ 200 := by
  exact ⟨rfl, by decide⟩

/-! ## C5: session-creation failures -/

/-- C5 (amended): with a fresh cached token and no cached session, a
non-200 session-creation response makes ensure_session_for_account fail —
with the exception text carrying the status code, except that on 401 the
console-hint line itself raises a NameError (it references an undefined
name), so no hint reaches any error message — the error propagates to the
dispatcher, and the pool state, in particular every availability flag, is
left unchanged. -/
theorem c5_session_failure_no_mark
    (cj : List Nat → String → String → Nat → String)
    (bd : String → Option (List Nat))
    (s : PoolState) (idx : Nat) (acc : Account) (tresp : TokenResp)
    (sresp : SessResp) (now : Nat) (j : String)
    (hjwt : ((s.states.get? idx).getD {}).jwt = some j)
    (hage : now - ((s.states.get? idx).getD {}).jwtTime ≤ 240)
    (hsess : ((s.states.get? idx).getD {}).session = none)
    (hstatus : sresp.status ≠ 200) :
    ensure_session_for_account cj bd s idx acc tresp sresp now =
      (Except.error
        (if sresp.status = 401 then "NameError: name account is not defined"
         else "创建会话失败: " ++ toString sresp.status), s) ∧
    (ensure_session_for_account cj bd s idx acc tresp sresp now).2.accounts.map
        Account.available = s.accounts.map Account.available := by
  have hcond : ¬(((s.states.get? idx).getD {}).jwt = none ∨
      240 < now - ((s.states.get? idx).getD {}).jwtTime) := by
    rintro (h | h)
    · rw [hjwt] at h
      exact Option.noConfusion h
    · omega
  have hjwtres : ensure_jwt_for_account cj bd s idx acc tresp now =
      (Except.ok (((s.states.get? idx).getD {}).jwt.getD ""), s) := by
    unfold ensure_jwt_for_account
    dsimp only
    rw [if_neg hcond]
  have hsess2 : (s.states[idx]?.getD ({} : AccState)).session = none := by
    simpa [List.get?_eq_getElem?] using hsess
  have hmain : ensure_session_for_account cj bd s idx acc tresp sresp now =
      (Except.error
        (if sresp.status = 401 then "NameError: name account is not defined"
         else "创建会话失败: " ++ toString sresp.status), s) := by
    by_cases h401 : sresp.status = 401
    · simp [ensure_session_for_account, hjwtres, hsess2, create_chat_session,
        hstatus, h401]
    · simp [ensure_session_for_account, hjwtres, hsess2, create_chat_session,
        hstatus, h401]
  refine ⟨hmain, ?_⟩
  rw [hmain]

def accC5 : Account := { csesidx := "c5" }

def poolC5 : PoolState :=
  { accounts := [accC5],
    states := [{ jwt := some "J", jwtTime := 100, session := none, available := true }],
    currentIndex := 0 }

def trespC5 : TokenResp := {}

def srespC5 : SessResp := { status := 500, sessionName := none }

def sresp401C5 : SessResp := { status := 401, sessionName := none }

/-- C5 witness: a 500 from session creation propagates with the status in
the message and leaves the pool untouched. -/
theorem c5_session_failure_no_mark_witness :
    ensure_session_for_account cjC4 bdC4 poolC5 0 accC5 trespC5 srespC5 200 =
      (Except.error
        (if srespC5.status = 401 then "NameError: name account is not defined"
         else "创建会话失败: " ++ toString srespC5.status), poolC5) ∧
    (ensure_session_for_account cjC4 bdC4 poolC5 0 accC5 trespC5 srespC5 200).2.accounts.map
        Account.available = poolC5.accounts.map Account.available :=
  c5_session_failure_no_mark cjC4 bdC4 poolC5 0 accC5 trespC5 srespC5 200 "J"
    rfl (by decide) rfl (by decide)

/-- C5 counterexample: on a 401 the raised error text is a NameError from
the undefined-name hint print and contains no team/config hint — contrary
to the claim that a misconfiguration hint is surfaced in the error
message. -/
theorem c5_hint_absent_counterexample :
    ensure_session_for_account cjC4 bdC4 poolC5 0 accC5 trespC5 sresp401C5 200 =
      (Except.error "NameError: name account is not defined", poolC5) ∧
    hasSubstr "NameError: name account is not defined" "team_id" = false := by
  exact ⟨rfl, by decide⟩

end BusinessGeminiPool
